import Mathlib

/-!
The program tmdbclientdataprovider: a shallow embedding of `main.go`.

The program parses a command line, resolves an API key, asks TMDB for a
multi search, maps every returned item to a flat `SearchResult`, optionally
inlines a thumbnail as base64 and prints the list as indented JSON.

Everything the program reaches outside of itself (the TMDB client library,
the HTTP client, the process environment) is a parameter of the model: an
`Env` of oracles.  Every network call the program makes is appended to a
trace of `Event`s, so that "no call is made" and "the call made is this
one" are statements about the trace.

Go strings are modelled by Lean strings (valid Unicode text), byte slices by
lists of `Fin 256`, `int64` identifiers by `Int` (they are only copied and
printed), Go's `error` by its message.
-/

namespace TmdbClient

/-! ## Data model -/

/-- A Go slice: `none` is the nil slice, `some l` a non-nil slice holding `l`. -/
abbrev GoSlice (α : Type) := Option (List α)

/-- The elements of a slice, the nil slice having none. -/
def GoSlice.toList {α : Type} : GoSlice α → List α
  | none => []
  | some l => l

/-- Go's `append(s, x)`: the result is never nil. -/
def goAppend {α : Type} (s : GoSlice α) (x : α) : GoSlice α :=
  some (s.toList ++ [x])

/-- One byte. -/
abbrev Byte := Fin 256

/-- SearchResult, `main.go` lines 18-27.  The Go field `Type` is spelled
`Type_` here because `Type` is reserved. -/
structure SearchResult where
  ID : Int
  Type_ : String
  FullTitle : String
  OriginalTitle : String
  ReleaseDate : String
  Overview : String
  SmallPosterBase64 : String
  LargePosterLink : String
deriving DecidableEq, Repr

/-- The zero value of `SearchResult`, what `var sr SearchResult` declares. -/
def SearchResult.zero : SearchResult :=
  { ID := 0, Type_ := "", FullTitle := "", OriginalTitle := "", ReleaseDate := "",
    Overview := "", SmallPosterBase64 := "", LargePosterLink := "" }

/-- Modelled from the spec: the element type of `SearchMulti.Results` of the
upstream client library (not part of this repository), reduced to the fields
that `runSearch` reads. -/
structure Item where
  ID : Int
  MediaType : String
  Title : String
  OriginalTitle : String
  ReleaseDate : String
  Name : String
  OriginalName : String
  FirstAirDate : String
  Overview : String
  PosterPath : String
deriving DecidableEq, Repr

/-- What `http.Get` followed by `io.ReadAll` can come back with. -/
inductive HttpResult where
  | transportError (err : String)
  | response (statusCode : Nat) (status : String) (body : Except String (List Byte))

/-- A network call made by the program. -/
inductive Event where
  | getSearchMulti (apiKey : String) (query : String) (params : List (String × String))
  | httpGet (url : String)
deriving DecidableEq, Repr

/-- The world outside the program.  `httpGet` may answer differently depending
on the calls made so far. -/
structure Env where
  tmdbInit : String → Except String Unit
  getSearchMulti : String → String → List (String × String) → Except String (List Item)
  httpGet : List Event → String → HttpResult

/-! ## `encoding/base64`, `StdEncoding.EncodeToString` -/

/-- The alphabet of `base64.StdEncoding`. -/
def encodeStd : List Char :=
  "ABCDEFGHIJKLMNOPQRSTUVWXYZabcdefghijklmnopqrstuvwxyz0123456789+/".toList

/-- The character `enc.encode[i]`. -/
def encChar (i : Nat) : Char := encodeStd.getD i 'A'

/-- The padding character of `base64.StdEncoding`. -/
def stdPadding : Char := '='

/-- The body of `Encoding.Encode` of Go's `encoding/base64` for `StdEncoding`:
whole groups of three bytes become four characters; a remainder of one or
two bytes becomes two or three characters followed by padding. -/
def base64Encode : List Byte → List Char
  | a :: b :: c :: rest =>
    let val := (a.val <<< 16) ||| (b.val <<< 8) ||| c.val
    encChar (val >>> 18 &&& 0x3F) :: encChar (val >>> 12 &&& 0x3F) ::
      encChar (val >>> 6 &&& 0x3F) :: encChar (val &&& 0x3F) :: base64Encode rest
  | [a, b] =>
    let val := (a.val <<< 16) ||| (b.val <<< 8)
    [encChar (val >>> 18 &&& 0x3F), encChar (val >>> 12 &&& 0x3F),
     encChar (val >>> 6 &&& 0x3F), stdPadding]
  | [a] =>
    let val := a.val <<< 16
    [encChar (val >>> 18 &&& 0x3F), encChar (val >>> 12 &&& 0x3F), stdPadding, stdPadding]
  | [] => []

/-- The call `base64.StdEncoding.EncodeToString(src)`. -/
def encodeToString (src : List Byte) : String := String.mk (base64Encode src)

/-! ## `fetchImageBase64`, `main.go` lines 144-163 -/

/-- The function fetchImageBase64: one GET of `url`, logged in the trace; an error for a
transport failure, for a status other than 200 and for a body that cannot be
read; otherwise the base64 text of the body. -/
def fetchImageBase64 (env : Env) (log : List Event) (url : String) :
    Except String String × List Event :=
  let log1 := log ++ [Event.httpGet url]
  match env.httpGet log url with
  | .transportError err => (.error err, log1)
  | .response statusCode status body =>
    if statusCode ≠ 200 then
      (.error ("failed to fetch image: " ++ status), log1)
    else
      match body with
      | .error err => (.error err, log1)
      | .ok imgData => (.ok (encodeToString imgData), log1)

/-! ## `runSearch`, `main.go` lines 73-142 -/

/-- The body of the loop of `runSearch`, lines 98-133: the record built for one
item, and the trace after it. -/
def mapItem (env : Env) (log : List Event) (item : Item) : SearchResult × List Event :=
  let sr := SearchResult.zero
  let sr := { sr with ID := item.ID }
  let sr := { sr with Type_ := item.MediaType }
  let sr :=
    if sr.Type_ = "movie" then
      { sr with FullTitle := item.Title, OriginalTitle := item.OriginalTitle,
                ReleaseDate := item.ReleaseDate }
    else if sr.Type_ = "tv" then
      { sr with FullTitle := item.Name, OriginalTitle := item.OriginalName,
                ReleaseDate := item.FirstAirDate }
    else
      { sr with FullTitle := item.Title, OriginalTitle := item.OriginalTitle,
                ReleaseDate := item.ReleaseDate }
  let sr := { sr with Overview := item.Overview }
  if item.PosterPath ≠ "" then
    let smallPosterURL := "https://image.tmdb.org/t/p/w154" ++ item.PosterPath
    let fetched := fetchImageBase64 env log smallPosterURL
    let sr :=
      match fetched.1 with
      | .ok encoded => { sr with SmallPosterBase64 := encoded }
      | .error _ => sr
    let sr := { sr with LargePosterLink := "https://image.tmdb.org/t/p/w500" ++ item.PosterPath }
    (sr, fetched.2)
  else
    (sr, log)

/-- The loop of `runSearch`, lines 97-134, started from the slice `acc` and the
trace `log`: the slice `searchResults` and the trace when the loop ends. -/
def searchLoop (env : Env) : List Item → GoSlice SearchResult → List Event →
    GoSlice SearchResult × List Event
  | [], acc, log => (acc, log)
  | item :: rest, acc, log =>
    let step := mapItem env log item
    searchLoop env rest (goAppend acc step.1) step.2

/-- The network call `runSearch` makes to search. -/
def searchCall (apiKey : String) (query : String) : Event :=
  Event.getSearchMulti apiKey query []

/-- The slice `searchResults` as line 136 finds it, when the search made with
`query` returned `items`. -/
def searchResultsOf (env : Env) (apiKey : String) (query : String) (items : List Item) :
    GoSlice SearchResult :=
  (searchLoop env items none [searchCall apiKey query]).1

/-! ## `strings.Join` -/

/-- The function `strings.Join`: nothing for no element, the element itself for one, and
otherwise the first element followed by, for every further element, the
separator and that element. -/
def stringsJoin (elems : List String) (sep : String) : String :=
  match elems with
  | [] => ""
  | [e] => e
  | e :: rest => rest.foldl (fun b s => (b ++ sep) ++ s) e

/-! ## `encoding/json`, `MarshalIndent` of a `[]SearchResult` -/

/-- The value of a struct field as the encoder sees it. -/
inductive FieldValue where
  | int (v : Int)
  | str (s : String)
deriving DecidableEq, Repr

/-- One field of a struct as the encoder sees it: the key of its `json` tag,
whether the tag carries `omitempty`, and its value. -/
structure StructField where
  name : String
  omitEmpty : Bool
  value : FieldValue
deriving DecidableEq, Repr

/-- The fields of `SearchResult` with their `json` tags, lines 19-26.  No tag
carries `omitempty`. -/
def SearchResult.fields (sr : SearchResult) : List StructField :=
  [ { name := "id", omitEmpty := false, value := .int sr.ID },
    { name := "type", omitEmpty := false, value := .str sr.Type_ },
    { name := "full_title", omitEmpty := false, value := .str sr.FullTitle },
    { name := "original_title", omitEmpty := false, value := .str sr.OriginalTitle },
    { name := "release_date", omitEmpty := false, value := .str sr.ReleaseDate },
    { name := "overview", omitEmpty := false, value := .str sr.Overview },
    { name := "small_poster_base64", omitEmpty := false, value := .str sr.SmallPosterBase64 },
    { name := "large_poster_link", omitEmpty := false, value := .str sr.LargePosterLink } ]

/-- The encoder's `isEmptyValue`: zero for a number, length zero for a string. -/
def isEmptyValue : FieldValue → Bool
  | .int v => v == 0
  | .str s => s.length == 0

/-- The double quote. -/
def quoteChar : Char := Char.ofNat 34

/-- The backslash. -/
def backslashChar : Char := Char.ofNat 92

/-- The table `hex` of the encoder. -/
def hexChar (n : Nat) : Char := "0123456789abcdef".toList.getD n '0'

/-- The table `htmlSafeSet` of the encoder: the ASCII characters from the space
on, except the double quote, `&`, `<`, `>` and the backslash. -/
def htmlSafe (c : Char) : Bool :=
  decide (0x20 ≤ c.toNat) && decide (c.toNat < 0x80) && !(c == quoteChar) && !(c == '&') &&
    !(c == '<') && !(c == '>') && !(c == backslashChar)

/-- What the encoder's `appendString` (with HTML escaping, as `Marshal` uses
it) writes for one character of a valid string. -/
def escapeChar (c : Char) : List Char :=
  if c.toNat < 0x80 then
    if htmlSafe c then [c]
    else if c = backslashChar ∨ c = quoteChar then [backslashChar, c]
    else if c = Char.ofNat 8 then [backslashChar, 'b']
    else if c = Char.ofNat 12 then [backslashChar, 'f']
    else if c = Char.ofNat 10 then [backslashChar, 'n']
    else if c = Char.ofNat 13 then [backslashChar, 'r']
    else if c = Char.ofNat 9 then [backslashChar, 't']
    else [backslashChar, 'u', '0', '0', hexChar (c.toNat >>> 4), hexChar (c.toNat &&& 0xF)]
  else if c = Char.ofNat 0x2028 ∨ c = Char.ofNat 0x2029 then
    [backslashChar, 'u', '2', '0', '2', hexChar (c.toNat &&& 0xF)]
  else [c]

/-- The encoder's `appendString`: the string between double quotes, escaped. -/
def encodeString (s : String) : String :=
  String.mk ([quoteChar] ++ (s.toList.map escapeChar).flatten ++ [quoteChar])

/-- The encoding of a field value: decimal for an integer, a quoted string for
a string. -/
def encodeValue : FieldValue → String
  | .int v => toString v
  | .str s => encodeString s

/-- The members the struct encoder writes: every field in declaration order,
skipping a field that is tagged `omitempty` and holds an empty value. -/
def encodeStruct (fields : List StructField) : List (String × String) :=
  (fields.filter (fun f => !(f.omitEmpty && isEmptyValue f.value))).map
    (fun f => (encodeString f.name, encodeValue f.value))

/-- The line break `Indent` writes at nesting `depth`, for the empty prefix and
an indent of two spaces. -/
def newlineIndent (depth : Nat) : String :=
  "\n" ++ String.join (List.replicate depth "  ")

/-- An indented JSON object at nesting `depth`. -/
def renderObject (depth : Nat) (members : List (String × String)) : String :=
  match members with
  | [] => "\x7b\x7d"
  | _ =>
    "\x7b" ++ newlineIndent (depth + 1) ++
      String.intercalate ("," ++ newlineIndent (depth + 1))
        (members.map (fun m => m.1 ++ ": " ++ m.2)) ++
      newlineIndent depth ++ "\x7d"

/-- An indented JSON array at nesting `depth`. -/
def renderArray (depth : Nat) (elems : List String) : String :=
  match elems with
  | [] => "[]"
  | _ =>
    "[" ++ newlineIndent (depth + 1) ++
      String.intercalate ("," ++ newlineIndent (depth + 1)) elems ++
      newlineIndent depth ++ "]"

/-- The text `json.MarshalIndent(searchResults, "", "  ")` produces: `null` for
the nil slice, an array of objects otherwise. -/
def marshalText (v : GoSlice SearchResult) : String :=
  match v with
  | none => "null"
  | some l => renderArray 0 (l.map (fun sr => renderObject 1 (encodeStruct sr.fields)))

/-- The call `json.MarshalIndent(searchResults, "", "  ")`.  It has no failing
case for this type. -/
def jsonMarshalIndent (v : GoSlice SearchResult) : Except String String :=
  .ok (marshalText v)

/-! ## `runSearch` as a whole -/

/-- How a run ends: `log.Fatal` with a message (status 1); normally, with what
`Run` wrote to standard output (status 0); with the help text shown by the
command framework, `Execute` returning no error (status 0); or with an error
returned by `Execute`, which lines 53-56 print before exiting with status 1. -/
inductive Exit where
  | fatal (msg : String)
  | ok (stdout : String)
  | help
  | usageError (msg : String)
deriving DecidableEq, Repr

/-- A run: the network calls made, in order, and how it ended. -/
structure Outcome where
  trace : List Event
  exit : Exit
deriving DecidableEq, Repr

/-- The function runSearch, lines 74-142. -/
def runSearch (env : Env) (apiKey : String) (args : List String) : Outcome :=
  let query := stringsJoin args " "
  match env.tmdbInit apiKey with
  | .error err => { trace := [], exit := .fatal ("Error initializing TMDB client: " ++ err) }
  | .ok _ =>
    let params : List (String × String) := []
    let call := Event.getSearchMulti apiKey query params
    match env.getSearchMulti apiKey query params with
    | .error err => { trace := [call], exit := .fatal ("Error searching TMDB: " ++ err) }
    | .ok results =>
      let looped := searchLoop env results none [call]
      match jsonMarshalIndent looped.1 with
      | .error err => { trace := looped.2, exit := .fatal ("Error marshaling results: " ++ err) }
      | .ok output => { trace := looped.2, exit := .ok (output ++ "\n") }

/-! ## `main`, lines 29-57 -/

/-- The hook `PersistentPreRun` of the root command, lines 35-43, run for the
command named `cmdName` with the flag value `apiKey`: the message of
`log.Fatal`, or the value `apiKey` holds when the hook returns. -/
def persistentPreRun (getenv : String → String) (apiKey : String) (cmdName : String) :
    Except String String :=
  if apiKey = "" then
    let apiKey := getenv "TMDB_API_KEY"
    if apiKey = "" ∧ cmdName ≠ "help" then
      .error "API key not provided. Use --api-key flag or set TMDB_API_KEY environment variable"
    else .ok apiKey
  else .ok apiKey

/-- The message of the fatal configuration error, line 40. -/
def missingKeyMessage : String :=
  "API key not provided. Use --api-key flag or set TMDB_API_KEY environment variable"

/-- A cobra command, reduced to what dispatch looks at: its name, its `Run`
(absent for a command that is not runnable), and its `Args` check, which
answers with an error message or with nothing. -/
structure Command where
  name : String
  run : Option (String → List String → Outcome)
  validateArgs : List String → Option String

/-- The check `cobra.MinimumNArgs(n)`. -/
def minimumNArgs (n : Nat) (args : List String) : Option String :=
  if args.length < n then
    some ("requires at least " ++ toString n ++ " arg(s), only received " ++
      toString args.length)
  else none

/-- The command built by `searchCmd`, lines 60-71: named `search`, at least one
argument, `Run` calling `runSearch` with the key and the arguments. -/
def searchCmd (env : Env) : Command :=
  { name := "search",
    run := some (fun apiKey args => runSearch env apiKey args),
    validateArgs := minimumNArgs 1 }

/-- The root command, lines 32-44: it has no `Run`. -/
def rootCmd : Command :=
  { name := "tmdbclientdataprovider", run := none, validateArgs := fun _ => none }

/-- The built-in `help` command of cobra: any arguments, `Run` showing help. -/
def helpCmd : Command :=
  { name := "help",
    run := some (fun _ _ => { trace := [], exit := .help }),
    validateArgs := fun _ => none }

/-- A command line as cobra resolves it: either rejected outright (unknown
command, malformed flags), or resolved to a command with the value of
`--api-key` (empty when not given), whether the help flag was given, and the
positional arguments. -/
inductive Invocation where
  | rejected (err : String)
  | resolved (cmd : Command) (apiKey : String) (helpFlag : Bool) (args : List String)

/-- The call `rootCmd.Execute()` with lines 53-56, following the order of
cobra's `execute`: a help flag shows help; a command without `Run` shows
help; the `Args` check may return an error; then the root's
`PersistentPreRun` runs for the command; then, unless the hook ended the
process, the command's `Run` with the key the hook left in `apiKey`. -/
def cobraExecute (getenv : String → String) : Invocation → Outcome
  | .rejected err => { trace := [], exit := .usageError err }
  | .resolved cmd apiKey helpFlag args =>
    if helpFlag then { trace := [], exit := .help }
    else
      match cmd.run with
      | none => { trace := [], exit := .help }
      | some run =>
        match cmd.validateArgs args with
        | some err => { trace := [], exit := .usageError err }
        | none =>
          match persistentPreRun getenv apiKey cmd.name with
          | .error msg => { trace := [], exit := .fatal msg }
          | .ok key => run key args

/-! ## The specification's own words, for comparison -/

/-- The terms concatenated in their order with exactly one space between
consecutive terms and nothing before the first or after the last. -/
def spacedConcat : List String → String
  | [] => ""
  | [t] => t
  | t :: u :: rest => t ++ " " ++ spacedConcat (u :: rest)

/-- The thumbnail URL of a poster path. -/
def smallPosterURL (posterPath : String) : String :=
  "https://image.tmdb.org/t/p/w154" ++ posterPath

/-- The full-size link of a poster path. -/
def largePosterLink (posterPath : String) : String :=
  "https://image.tmdb.org/t/p/w500" ++ posterPath

/-! ## Sample worlds -/

/-- A sample item: a film with a poster. -/
def sampleMovie : Item :=
  { ID := 603, MediaType := "movie", Title := "The Matrix", OriginalTitle := "Matrix",
    ReleaseDate := "1999-03-30", Name := "n", OriginalName := "on", FirstAirDate := "fad",
    Overview := "A hacker.", PosterPath := "/m.jpg" }

/-- A sample item: a series without a poster. -/
def sampleTv : Item :=
  { ID := 1399, MediaType := "tv", Title := "t", OriginalTitle := "ot",
    ReleaseDate := "rd", Name := "Thrones", OriginalName := "GoT", FirstAirDate := "2011-04-17",
    Overview := "Families.", PosterPath := "" }

/-- A sample item of a type that is neither film nor series. -/
def samplePerson : Item :=
  { ID := 31, MediaType := "person", Title := "pt", OriginalTitle := "pot",
    ReleaseDate := "prd", Name := "Tom", OriginalName := "Thomas", FirstAirDate := "pfad",
    Overview := "", PosterPath := "" }

/-- A world whose search returns `items` and whose every GET is answered by
`answer`. -/
def sampleEnv (items : List Item) (answer : HttpResult) : Env :=
  { tmdbInit := fun k => if k = "" then .error "api key is empty" else .ok (),
    getSearchMulti := fun _ _ _ => .ok items,
    httpGet := fun _ _ => answer }

/-- An answer with status 200 and the five bytes of `fooba` as body. -/
def answerOk : HttpResult := .response 200 "200 OK" (.ok [102, 111, 111, 98, 97])

/-- An answer with status 404. -/
def answerNotFound : HttpResult := .response 404 "404 Not Found" (.ok [])

/-! ## Base64 as RFC 4648 words it, for comparison -/

/-- The eight bits of a byte, most significant first. -/
def byteBits (b : Byte) : List Nat :=
  [b.val / 128 % 2, b.val / 64 % 2, b.val / 32 % 2, b.val / 16 % 2,
   b.val / 8 % 2, b.val / 4 % 2, b.val / 2 % 2, b.val % 2]

/-- The number a list of bits spells, most significant first. -/
def bitsValue (bits : List Nat) : Nat := bits.foldl (fun n b => 2 * n + b) 0

/-- The bit stream cut into groups of six from the left; a final shorter group
is filled up with zero bits on the right. -/
def sextets : List Nat → List (List Nat)
  | b0 :: b1 :: b2 :: b3 :: b4 :: b5 :: rest => [b0, b1, b2, b3, b4, b5] :: sextets rest
  | [] => []
  | [b0] => [[b0, 0, 0, 0, 0, 0]]
  | [b0, b1] => [[b0, b1, 0, 0, 0, 0]]
  | [b0, b1, b2] => [[b0, b1, b2, 0, 0, 0]]
  | [b0, b1, b2, b3] => [[b0, b1, b2, b3, 0, 0]]
  | [b0, b1, b2, b3, b4] => [[b0, b1, b2, b3, b4, 0]]

/-- Standard base64 of RFC 4648: the bytes as one bit stream, cut into groups
of six bits, every group replaced by the character of the standard alphabet
at the index the group spells, and `=` appended until the number of characters
is a multiple of four. -/
def rfcBase64 (B : List Byte) : List Char :=
  let chars := (sextets (B.map byteBits).flatten).map (fun g => encChar (bitsValue g))
  chars ++ List.replicate ((4 - chars.length % 4) % 4) '='


/-- The quoted `key` occurs somewhere in `text`. -/
def occursIn (key text : String) : Prop := key.toList <:+: text.toList

instance (key text : String) : Decidable (occursIn key text) :=
  inferInstanceAs (Decidable (key.toList <:+: text.toList))

/-- What the run over `sampleTv` alone writes to standard output. -/
def sampleTvOutput : String :=
  "[\n  \x7b\n    \"id\": 1399,\n    \"type\": \"tv\",\n    \"full_title\": \"Thrones\",\n    \"original_title\": \"GoT\",\n    \"release_date\": \"2011-04-17\",\n    \"overview\": \"Families.\",\n    \"small_poster_base64\": \"\",\n    \"large_poster_link\": \"\"\n  \x7d\n]\n"

/-! ## Facts about the loop body -/

/-- The record the loop body builds, field by field. -/
theorem mapItem_fst (env : Env) (log : List Event) (item : Item) :
    (mapItem env log item).1 =
      { ID := item.ID,
        Type_ := item.MediaType,
        FullTitle := if item.MediaType = "tv" then item.Name else item.Title,
        OriginalTitle := if item.MediaType = "tv" then item.OriginalName else item.OriginalTitle,
        ReleaseDate := if item.MediaType = "tv" then item.FirstAirDate else item.ReleaseDate,
        Overview := item.Overview,
        SmallPosterBase64 :=
          if item.PosterPath = "" then ""
          else match (fetchImageBase64 env log (smallPosterURL item.PosterPath)).1 with
            | .ok encoded => encoded
            | .error _ => "",
        LargePosterLink :=
          if item.PosterPath = "" then "" else largePosterLink item.PosterPath } := by
  have hne : ¬ ("tv" = "movie") := by decide
  by_cases hp : item.PosterPath = "" <;> by_cases hm : item.MediaType = "movie" <;>
    by_cases ht : item.MediaType = "tv" <;>
    cases hf : (fetchImageBase64 env log ("https://image.tmdb.org/t/p/w154" ++ item.PosterPath)).1 <;>
    simp_all [mapItem, SearchResult.zero, smallPosterURL, largePosterLink]

/-- The trace after the loop body. -/
theorem mapItem_snd (env : Env) (log : List Event) (item : Item) :
    (mapItem env log item).2 =
      if item.PosterPath = "" then log
      else log ++ [Event.httpGet (smallPosterURL item.PosterPath)] := by
  by_cases hp : item.PosterPath = ""
  · simp [mapItem, hp]
  · simp only [mapItem, hp, ne_eq, not_false_eq_true, if_true, if_false, smallPosterURL]
    unfold fetchImageBase64
    split
    · rfl
    · split_ifs
      · rfl
      · split <;> rfl

/-! ## Facts about `fetchImageBase64` -/

theorem fetch_of_transportError (env : Env) (log : List Event) (url err : String)
    (h : env.httpGet log url = .transportError err) :
    (fetchImageBase64 env log url).1 = .error err := by
  simp [fetchImageBase64, h]

theorem fetch_of_bad_status (env : Env) (log : List Event) (url status : String) (code : Nat)
    (body : Except String (List Byte))
    (h : env.httpGet log url = .response code status body) (hc : code ≠ 200) :
    (fetchImageBase64 env log url).1 = .error ("failed to fetch image: " ++ status) := by
  simp [fetchImageBase64, h, hc]

theorem fetch_of_ok (env : Env) (log : List Event) (url status : String) (B : List Byte)
    (h : env.httpGet log url = .response 200 status (.ok B)) :
    (fetchImageBase64 env log url).1 = .ok (encodeToString B) := by
  simp [fetchImageBase64, h]

/-! ## Facts about the loop -/

theorem searchLoop_fst_toList (env : Env) :
    ∀ (items : List Item) (acc : GoSlice SearchResult) (log : List Event),
      ∃ rs : List SearchResult,
        (searchLoop env items acc log).1.toList = acc.toList ++ rs ∧
        List.Forall₂ (fun it r => ∃ l, r = (mapItem env l it).1) items rs
  | [], acc, log => ⟨[], by simp [searchLoop], List.Forall₂.nil⟩
  | item :: rest, acc, log => by
    obtain ⟨rs, h1, h2⟩ :=
      searchLoop_fst_toList env rest (goAppend acc (mapItem env log item).1)
        (mapItem env log item).2
    refine ⟨(mapItem env log item).1 :: rs, ?_, List.Forall₂.cons ⟨log, rfl⟩ h2⟩
    show (searchLoop env rest (goAppend acc (mapItem env log item).1)
      (mapItem env log item).2).1.toList = _
    rw [h1]
    simp [goAppend, GoSlice.toList]

theorem searchLoop_snd (env : Env) :
    ∀ (items : List Item) (acc : GoSlice SearchResult) (log : List Event),
      (searchLoop env items acc log).2 =
        log ++ (items.filter (fun it => decide (it.PosterPath ≠ ""))).map
          (fun it => Event.httpGet (smallPosterURL it.PosterPath))
  | [], acc, log => by simp [searchLoop]
  | item :: rest, acc, log => by
    have ih := searchLoop_snd env rest (goAppend acc (mapItem env log item).1)
      (mapItem env log item).2
    show (searchLoop env rest (goAppend acc (mapItem env log item).1)
      (mapItem env log item).2).2 = _
    rw [ih, mapItem_snd]
    by_cases hp : item.PosterPath = "" <;> simp [hp]

theorem searchLoop_some (env : Env) :
    ∀ (items : List Item) (l : List SearchResult) (log : List Event),
      ∃ l2, (searchLoop env items (some l) log).1 = some l2
  | [], l, _ => ⟨l, rfl⟩
  | item :: rest, l, log =>
    searchLoop_some env rest (l ++ [(mapItem env log item).1]) (mapItem env log item).2

theorem searchLoop_cons_fst (env : Env) (item : Item) (rest : List Item)
    (acc : GoSlice SearchResult) (log : List Event) :
    ∃ rs : List SearchResult,
      (searchLoop env (item :: rest) acc log).1 =
        some (acc.toList ++ (mapItem env log item).1 :: rs) ∧
      rs.length = rest.length := by
  obtain ⟨rs, h1, h2⟩ :=
    searchLoop_fst_toList env rest (goAppend acc (mapItem env log item).1)
      (mapItem env log item).2
  obtain ⟨l2, h3⟩ :=
    searchLoop_some env rest (acc.toList ++ [(mapItem env log item).1])
      (mapItem env log item).2
  refine ⟨rs, ?_, h2.length_eq.symm⟩
  show (searchLoop env rest (goAppend acc (mapItem env log item).1)
    (mapItem env log item).2).1 = _
  have h4 : (searchLoop env rest (goAppend acc (mapItem env log item).1)
      (mapItem env log item).2).1 = some l2 := h3
  rw [h4] at h1 ⊢
  have h5 : l2 = (acc.toList ++ [(mapItem env log item).1]) ++ rs := h1
  rw [h5]
  simp

theorem runSearch_of_success (env : Env) (apiKey : String) (args : List String)
    (items : List Item) (hinit : env.tmdbInit apiKey = .ok ())
    (hsearch : env.getSearchMulti apiKey (stringsJoin args " ") [] = .ok items) :
    runSearch env apiKey args =
      { trace := (searchLoop env items none [searchCall apiKey (stringsJoin args " ")]).2,
        exit := .ok (marshalText (searchResultsOf env apiKey (stringsJoin args " ") items)
                  ++ "\n") } := by
  simp [runSearch, hinit, hsearch, jsonMarshalIndent, searchResultsOf, searchCall]

/-! ## Facts about `strings.Join` -/

theorem foldl_sep_append (sep : String) :
    ∀ (rest : List String) (p e : String),
      rest.foldl (fun b s => (b ++ sep) ++ s) (p ++ e) =
        p ++ rest.foldl (fun b s => (b ++ sep) ++ s) e
  | [], p, e => rfl
  | s :: rest, p, e => by
    simp only [List.foldl_cons]
    rw [String.append_assoc, String.append_assoc, foldl_sep_append sep rest p (e ++ (sep ++ s)),
      String.append_assoc]

theorem stringsJoin_cons (e : String) (rest : List String) (sep : String) :
    stringsJoin (e :: rest) sep = rest.foldl (fun b s => (b ++ sep) ++ s) e := by
  cases rest <;> rfl

theorem stringsJoin_eq_spacedConcat : ∀ (args : List String),
    stringsJoin args " " = spacedConcat args
  | [] => rfl
  | [t] => rfl
  | t :: u :: rest => by
    have ih := stringsJoin_eq_spacedConcat (u :: rest)
    rw [stringsJoin_cons] at ih ⊢
    simp only [List.foldl_cons, spacedConcat]
    rw [String.append_assoc, foldl_sep_append, foldl_sep_append, ← ih, String.append_assoc]

theorem foldl_append_left : ∀ (l : List String) (p e : String),
    l.foldl (fun r s => r ++ s) (p ++ e) = p ++ l.foldl (fun r s => r ++ s) e
  | [], p, e => rfl
  | s :: l, p, e => by
    simp only [List.foldl_cons]
    rw [String.append_assoc, foldl_append_left l p (e ++ s)]

theorem string_join_cons (a : String) (l : List String) :
    String.join (a :: l) = a ++ String.join l := by
  unfold String.join
  simp only [List.foldl_cons]
  have h := foldl_append_left l a ""
  simp only [String.append_empty, String.empty_append] at h ⊢
  exact h

theorem spacedConcat_cons (t : String) : ∀ (rest : List String),
    spacedConcat (t :: rest) = t ++ String.join (rest.map (fun u => " " ++ u))
  | [] => by simp [spacedConcat, String.join]
  | u :: rest => by
    have ih := spacedConcat_cons u rest
    simp only [spacedConcat, List.map_cons]
    rw [ih, String.append_assoc, string_join_cons, String.append_assoc]

theorem mapItem_ID (env : Env) (log : List Event) (item : Item) :
    (mapItem env log item).1.ID = item.ID := by
  rw [mapItem_fst]

theorem mapItem_Type (env : Env) (log : List Event) (item : Item) :
    (mapItem env log item).1.Type_ = item.MediaType := by
  rw [mapItem_fst]

theorem mapItem_Overview (env : Env) (log : List Event) (item : Item) :
    (mapItem env log item).1.Overview = item.Overview := by
  rw [mapItem_fst]

/-! ## Go's encoder computes RFC 4648 base64 -/

theorem shift_mask (v k : Nat) : v >>> k &&& 0x3F = v / 2 ^ k % 64 := by
  rw [Nat.shiftRight_eq_div_pow]
  exact Nat.and_pow_two_sub_one_eq_mod _ 6

theorem pack2 (a b : Nat) (hb : b < 256) : a <<< 16 ||| b <<< 8 = a * 65536 + b * 256 := by
  rw [Nat.shiftLeft_eq, Nat.shiftLeft_eq]
  have h := Nat.mul_add_lt_is_or (i := 16) (b := b * 2 ^ 8) (by omega) a
  rw [Nat.mul_comm (2 ^ 16) a] at h
  rw [← h]
  norm_num

theorem pack3 (a b c : Nat) (hb : b < 256) (hc : c < 256) :
    a <<< 16 ||| b <<< 8 ||| c = a * 65536 + b * 256 + c := by
  rw [pack2 a b hb]
  have h := Nat.mul_add_lt_is_or (i := 8) (b := c) (by omega) (a * 256 + b)
  have e : 2 ^ 8 * (a * 256 + b) = a * 65536 + b * 256 := by ring
  rw [e] at h
  exact h.symm

theorem rfcBase64_three (a b c : Byte) (rest : List Byte) :
    rfcBase64 (a :: b :: c :: rest) =
      encChar (a.val / 4) :: encChar (a.val % 4 * 16 + b.val / 16) ::
        encChar (b.val % 16 * 4 + c.val / 64) :: encChar (c.val % 64) :: rfcBase64 rest := by
  have ha := a.isLt
  have hb := b.isLt
  have hc := c.isLt
  have e1 : bitsValue [a.val / 128 % 2, a.val / 64 % 2, a.val / 32 % 2, a.val / 16 % 2,
      a.val / 8 % 2, a.val / 4 % 2] = a.val / 4 := by
    simp only [bitsValue, List.foldl]
    omega
  have e2 : bitsValue [a.val / 2 % 2, a.val % 2, b.val / 128 % 2, b.val / 64 % 2,
      b.val / 32 % 2, b.val / 16 % 2] = a.val % 4 * 16 + b.val / 16 := by
    simp only [bitsValue, List.foldl]
    omega
  have e3 : bitsValue [b.val / 8 % 2, b.val / 4 % 2, b.val / 2 % 2, b.val % 2,
      c.val / 128 % 2, c.val / 64 % 2] = b.val % 16 * 4 + c.val / 64 := by
    simp only [bitsValue, List.foldl]
    omega
  have e4 : bitsValue [c.val / 32 % 2, c.val / 16 % 2, c.val / 8 % 2, c.val / 4 % 2,
      c.val / 2 % 2, c.val % 2] = c.val % 64 := by
    simp only [bitsValue, List.foldl]
    omega
  have hpad : ∀ n : Nat, (4 - (n + 4) % 4) % 4 = (4 - n % 4) % 4 := by
    intro n
    omega
  simp only [rfcBase64, List.map_cons, List.flatten_cons, byteBits, List.cons_append,
    List.nil_append, sextets, List.length_cons, e1, e2, e3, e4, hpad]
  rfl
theorem base64Encode_eq_rfcBase64 : ∀ (B : List Byte), base64Encode B = rfcBase64 B
  | a :: b :: c :: rest => by
    have ih := base64Encode_eq_rfcBase64 rest
    have hb := b.isLt
    have hc := c.isLt
    rw [rfcBase64_three, ← ih]
    simp only [base64Encode, shift_mask, pack3 a.val b.val c.val hb hc]
    have h1 : (a.val * 65536 + b.val * 256 + c.val) / 2 ^ 18 % 64 = a.val / 4 := by omega
    have h2 : (a.val * 65536 + b.val * 256 + c.val) / 2 ^ 12 % 64 =
        a.val % 4 * 16 + b.val / 16 := by omega
    have h3 : (a.val * 65536 + b.val * 256 + c.val) / 2 ^ 6 % 64 =
        b.val % 16 * 4 + c.val / 64 := by omega
    have h4 : (a.val * 65536 + b.val * 256 + c.val) &&& 0x3F = c.val % 64 := by
      have h := shift_mask (a.val * 65536 + b.val * 256 + c.val) 0
      simp only [Nat.shiftRight_zero, pow_zero, Nat.div_one] at h
      rw [h]
      omega
    rw [h1, h2, h3, h4]
  | [a, b] => by
    have ha := a.isLt
    have hb := b.isLt
    have e1 : bitsValue [a.val / 128 % 2, a.val / 64 % 2, a.val / 32 % 2, a.val / 16 % 2,
        a.val / 8 % 2, a.val / 4 % 2] = a.val / 4 := by
      simp only [bitsValue, List.foldl]
      omega
    have e2 : bitsValue [a.val / 2 % 2, a.val % 2, b.val / 128 % 2, b.val / 64 % 2,
        b.val / 32 % 2, b.val / 16 % 2] = a.val % 4 * 16 + b.val / 16 := by
      simp only [bitsValue, List.foldl]
      omega
    have e3 : bitsValue [b.val / 8 % 2, b.val / 4 % 2, b.val / 2 % 2, b.val % 2, 0, 0] =
        b.val % 16 * 4 := by
      simp only [bitsValue, List.foldl]
      omega
    have h1 : (a.val * 65536 + b.val * 256) / 2 ^ 18 % 64 = a.val / 4 := by omega
    have h2 : (a.val * 65536 + b.val * 256) / 2 ^ 12 % 64 = a.val % 4 * 16 + b.val / 16 := by
      omega
    have h3 : (a.val * 65536 + b.val * 256) / 2 ^ 6 % 64 = b.val % 16 * 4 := by omega
    simp only [base64Encode, shift_mask, pack2 a.val b.val hb, h1, h2, h3]
    simp only [rfcBase64, List.map_cons, List.map_nil, List.flatten_cons, List.flatten_nil,
      byteBits, List.cons_append, List.nil_append, List.append_nil, sextets, List.length_cons,
      List.length_nil, e1, e2, e3]
    rfl
  | [a] => by
    have ha := a.isLt
    have e1 : bitsValue [a.val / 128 % 2, a.val / 64 % 2, a.val / 32 % 2, a.val / 16 % 2,
        a.val / 8 % 2, a.val / 4 % 2] = a.val / 4 := by
      simp only [bitsValue, List.foldl]
      omega
    have e2 : bitsValue [a.val / 2 % 2, a.val % 2, 0, 0, 0, 0] = a.val % 4 * 16 := by
      simp only [bitsValue, List.foldl]
      omega
    have h1 : (a.val * 2 ^ 16) / 2 ^ 18 % 64 = a.val / 4 := by omega
    have h2 : (a.val * 2 ^ 16) / 2 ^ 12 % 64 = a.val % 4 * 16 := by omega
    simp only [base64Encode, shift_mask, Nat.shiftLeft_eq, h1, h2]
    simp only [rfcBase64, List.map_cons, List.map_nil, List.flatten_cons, List.flatten_nil,
      byteBits, List.cons_append, List.nil_append, List.append_nil, sextets, List.length_cons,
      List.length_nil, e1, e2]
    rfl
  | [] => rfl

theorem encChar_mem (i : Nat) : encChar i ∈ encodeStd := by
  unfold encChar
  by_cases h : i < encodeStd.length
  · rw [List.getD_eq_getElem _ _ h]
    exact List.getElem_mem h
  · rw [List.getD_eq_default _ _ (Nat.le_of_not_lt h)]
    decide

theorem base64Encode_alphabet : ∀ (B : List Byte) (c : Char),
    c ∈ base64Encode B → c ∈ encodeStd ∨ c = '='
  | a :: b :: d :: rest, c, h => by
    simp only [base64Encode, List.mem_cons] at h
    rcases h with h | h | h | h | h
    · exact Or.inl (h ▸ encChar_mem _)
    · exact Or.inl (h ▸ encChar_mem _)
    · exact Or.inl (h ▸ encChar_mem _)
    · exact Or.inl (h ▸ encChar_mem _)
    · exact base64Encode_alphabet rest c h
  | [a, b], c, h => by
    simp only [base64Encode, List.mem_cons, List.not_mem_nil, or_false, stdPadding] at h
    rcases h with h | h | h | h
    · exact Or.inl (h ▸ encChar_mem _)
    · exact Or.inl (h ▸ encChar_mem _)
    · exact Or.inl (h ▸ encChar_mem _)
    · exact Or.inr h
  | [a], c, h => by
    simp only [base64Encode, List.mem_cons, List.not_mem_nil, or_false, stdPadding] at h
    rcases h with h | h | h | h
    · exact Or.inl (h ▸ encChar_mem _)
    · exact Or.inl (h ▸ encChar_mem _)
    · exact Or.inr h
    · exact Or.inr h
  | [], c, h => by simp [base64Encode] at h

theorem base64Encode_length : ∀ (B : List Byte),
    (base64Encode B).length = 4 * ((B.length + 2) / 3)
  | a :: b :: c :: rest => by
    have ih := base64Encode_length rest
    simp only [base64Encode, List.length_cons, ih]
    omega
  | [a, b] => by simp [base64Encode]
  | [a] => by simp [base64Encode]
  | [] => rfl

/-! ## Facts about the serialization -/

theorem occursIn_mid (a n b : String) : occursIn n (a ++ (n ++ b)) := by
  unfold occursIn
  simp only [String.toList, String.data_append]
  exact List.infix_append' _ _ _

theorem renderObject_fields (sr : SearchResult) (depth : Nat) :
    renderObject depth (encodeStruct sr.fields) =
    "\x7b" ++ (newlineIndent (depth + 1) ++ (encodeString "id" ++ (": " ++ (toString sr.ID ++
    ("," ++ (newlineIndent (depth + 1) ++
    (encodeString "type" ++ (": " ++ (encodeString sr.Type_ ++
    ("," ++ (newlineIndent (depth + 1) ++
    (encodeString "full_title" ++ (": " ++ (encodeString sr.FullTitle ++
    ("," ++ (newlineIndent (depth + 1) ++
    (encodeString "original_title" ++ (": " ++ (encodeString sr.OriginalTitle ++
    ("," ++ (newlineIndent (depth + 1) ++
    (encodeString "release_date" ++ (": " ++ (encodeString sr.ReleaseDate ++
    ("," ++ (newlineIndent (depth + 1) ++
    (encodeString "overview" ++ (": " ++ (encodeString sr.Overview ++
    ("," ++ (newlineIndent (depth + 1) ++
    (encodeString "small_poster_base64" ++ (": " ++ (encodeString sr.SmallPosterBase64 ++
    ("," ++ (newlineIndent (depth + 1) ++
    (encodeString "large_poster_link" ++ (": " ++ (encodeString sr.LargePosterLink ++
    (newlineIndent depth ++ "\x7d")))))))))))))))))))))))))))))))))))))))) := by
  simp only [renderObject, encodeStruct, SearchResult.fields, List.filter, Bool.false_and,
    Bool.not_false, List.map, String.intercalate, String.intercalate.go, String.append_assoc,
    encodeValue]

theorem occursIn_trans {a b c : String} (h1 : occursIn a b) (h2 : occursIn b c) :
    occursIn a c :=
  List.IsInfix.trans h1 h2

theorem occursIn_refl (a : String) : occursIn a a := List.infix_refl _

theorem occursIn_head (n b : String) : occursIn n (n ++ b) := by
  have h := occursIn_mid "" n b
  simpa using h

theorem occursIn_append_right {n t : String} (p : String) (h : occursIn n t) :
    occursIn n (p ++ t) := by
  have h2 : occursIn t (p ++ t) := by
    have h3 := occursIn_mid p t ""
    simpa using h3
  exact occursIn_trans h h2

theorem occursIn_append_left {n t : String} (q : String) (h : occursIn n t) :
    occursIn n (t ++ q) :=
  occursIn_trans h (occursIn_head t q)

theorem small_member_occurs (sr : SearchResult) (depth : Nat) :
    occursIn (encodeString "small_poster_base64" ++ (": " ++ encodeString sr.SmallPosterBase64))
      (renderObject depth (encodeStruct sr.fields)) := by
  rw [renderObject_fields]
  iterate 32 apply occursIn_append_right
  rw [← String.append_assoc (": "), ← String.append_assoc (encodeString "small_poster_base64")]
  exact occursIn_head _ _

theorem large_member_occurs (sr : SearchResult) (depth : Nat) :
    occursIn (encodeString "large_poster_link" ++ (": " ++ encodeString sr.LargePosterLink))
      (renderObject depth (encodeStruct sr.fields)) := by
  rw [renderObject_fields]
  iterate 37 apply occursIn_append_right
  rw [← String.append_assoc (": "), ← String.append_assoc (encodeString "large_poster_link")]
  exact occursIn_head _ _

theorem small_key_occurs (sr : SearchResult) (depth : Nat) :
    occursIn (encodeString "small_poster_base64")
      (renderObject depth (encodeStruct sr.fields)) :=
  occursIn_trans (occursIn_head _ _) (small_member_occurs sr depth)

theorem intercalate_go_occurs (sep : String) : ∀ (rest : List String) (acc : String),
    occursIn acc (String.intercalate.go acc sep rest) ∧
    ∀ x ∈ rest, occursIn x (String.intercalate.go acc sep rest)
  | [], acc => ⟨occursIn_refl acc, by simp⟩
  | a :: rest, acc => by
    obtain ⟨h1, h2⟩ := intercalate_go_occurs sep rest (acc ++ sep ++ a)
    refine ⟨?_, ?_⟩
    · have h : occursIn acc (acc ++ sep ++ a) := by
        rw [String.append_assoc]
        exact occursIn_head _ _
      exact occursIn_trans h h1
    · intro x hx
      rcases List.mem_cons.mp hx with hx | hx
      · subst hx
        exact occursIn_trans (occursIn_append_right _ (occursIn_refl x)) h1
      · exact h2 x hx

theorem intercalate_occurs (sep : String) (l : List String) (x : String) (hx : x ∈ l) :
    occursIn x (String.intercalate sep l) := by
  cases l with
  | nil => simp at hx
  | cons a rest =>
    obtain ⟨h1, h2⟩ := intercalate_go_occurs sep rest a
    rcases List.mem_cons.mp hx with hx | hx
    · subst hx
      exact h1
    · exact h2 x hx

theorem renderArray_of_ne_nil (depth : Nat) (elems : List String) (h : elems ≠ []) :
    renderArray depth elems =
      "[" ++ newlineIndent (depth + 1) ++
        String.intercalate ("," ++ newlineIndent (depth + 1)) elems ++
        newlineIndent depth ++ "]" := by
  cases elems with
  | nil => exact absurd rfl h
  | cons a rest => rfl

theorem object_occurs (l : List SearchResult) (sr : SearchResult) (hmem : sr ∈ l) :
    occursIn (renderObject 1 (encodeStruct sr.fields)) (marshalText (some l)) := by
  have hx : renderObject 1 (encodeStruct sr.fields) ∈
      l.map (fun sr => renderObject 1 (encodeStruct sr.fields)) :=
    List.mem_map_of_mem _ hmem
  have hne : l.map (fun sr => renderObject 1 (encodeStruct sr.fields)) ≠ [] :=
    List.ne_nil_of_mem hx
  have hi := intercalate_occurs ("," ++ newlineIndent (0 + 1)) _ _ hx
  show occursIn _ (renderArray 0 (l.map (fun sr => renderObject 1 (encodeStruct sr.fields))))
  rw [renderArray_of_ne_nil 0 _ hne]
  exact occursIn_append_left _ (occursIn_append_left _ (occursIn_append_right _ hi))

/-! ## Facts about dispatch -/

theorem append_ne_of_head (a b err : String) (c d : Char) (ha : a.data.head? = some c)
    (hb : b.data.head? = some d) (hcd : c ≠ d) : a ++ err ≠ b := by
  intro h
  have h2 := congrArg String.data h
  rw [String.data_append] at h2
  cases hx : a.data with
  | nil => simp [hx] at ha
  | cons x xs =>
    rw [hx] at ha h2
    rw [← h2] at hb
    simp only [List.cons_append, List.head?_cons, Option.some.injEq] at ha hb
    exact hcd (ha.symm.trans hb)

theorem runSearch_exit_ne_missingKey (env : Env) (apiKey : String) (args : List String) :
    (runSearch env apiKey args).exit ≠ .fatal missingKeyMessage := by
  have h1 : ∀ err : String, "Error initializing TMDB client: " ++ err ≠ missingKeyMessage :=
    fun err => append_ne_of_head _ _ err 'E' 'A' rfl rfl (by decide)
  have h2 : ∀ err : String, "Error searching TMDB: " ++ err ≠ missingKeyMessage :=
    fun err => append_ne_of_head _ _ err 'E' 'A' rfl rfl (by decide)
  unfold runSearch
  cases hi : env.tmdbInit apiKey with
  | error err => simp [h1]
  | ok u =>
    cases hs : env.getSearchMulti apiKey (stringsJoin args " ") [] with
    | error err => simp [hs, h2]
    | ok items => simp [hs, jsonMarshalIndent]

theorem minimumNArgs_one (args : List String) :
    (minimumNArgs 1 args = none ↔ args ≠ []) ∧
    (args = [] → minimumNArgs 1 args = some "requires at least 1 arg(s), only received 0") := by
  cases args with
  | nil => exact ⟨by simp [minimumNArgs], fun _ => by decide⟩
  | cons a rest => simp [minimumNArgs]

theorem searchCmd_fatal_iff (env : Env) (getenv : String → String) (flag : String)
    (helpFlag : Bool) (args : List String) :
    cobraExecute getenv (.resolved (searchCmd env) flag helpFlag args) =
        { trace := [], exit := .fatal missingKeyMessage } ↔
      (helpFlag = false ∧ args ≠ [] ∧ flag = "" ∧ getenv "TMDB_API_KEY" = "") := by
  have hs : ¬ ("search" = "help") := by decide
  cases helpFlag with
  | true => simp [cobraExecute]
  | false =>
    cases args with
    | nil =>
      have hv := (minimumNArgs_one []).2 rfl
      simp [cobraExecute, searchCmd, hv]
    | cons a rest =>
      have hv : minimumNArgs 1 (a :: rest) = none := (minimumNArgs_one (a :: rest)).1.mpr (by simp)
      by_cases hf : flag = ""
      · by_cases he : getenv "TMDB_API_KEY" = ""
        · simp [cobraExecute, searchCmd, hv, persistentPreRun, missingKeyMessage, hf, he, hs]
        · have hne := runSearch_exit_ne_missingKey env (getenv "TMDB_API_KEY") (a :: rest)
          simp only [cobraExecute, searchCmd, hv, persistentPreRun, hf, he, hs]
          simp only [Bool.false_eq_true, if_false, if_true, false_and, and_false, ne_eq,
            not_false_eq_true, and_true, List.cons_ne_nil, true_and, iff_false]
          intro h
          exact hne (congrArg Outcome.exit h)
      · have hne := runSearch_exit_ne_missingKey env flag (a :: rest)
        simp only [cobraExecute, searchCmd, hv, persistentPreRun, hf]
        simp only [Bool.false_eq_true, if_false, false_and, and_false, iff_false]
        intro h
        exact hne (congrArg Outcome.exit h)

set_option maxRecDepth 100000

/-! ## The claims -/

/-- C1: when the multi search succeeds with the list `items`, `runSearch` prints
the serialization of a slice of the same length whose i-th record is the loop
body applied to the i-th item, with the item's id, media type and overview
copied: nothing is filtered, deduplicated or reordered. -/
theorem runSearch_maps_every_item_in_order (env : Env) (apiKey : String)
    (args : List String) (items : List Item)
    (hinit : env.tmdbInit apiKey = .ok ())
    (hsearch : env.getSearchMulti apiKey (stringsJoin args " ") [] = .ok items) :
    (runSearch env apiKey args).exit =
      .ok (marshalText (searchResultsOf env apiKey (stringsJoin args " ") items) ++ "\n") ∧
    (searchResultsOf env apiKey (stringsJoin args " ") items).toList.length = items.length ∧
    ∀ (i : Nat) (hi : i < items.length), ∃ (r : SearchResult) (log : List Event),
      (searchResultsOf env apiKey (stringsJoin args " ") items).toList[i]? = some r ∧
      r = (mapItem env log items[i]).1 ∧
      r.ID = items[i].ID ∧ r.Type_ = items[i].MediaType ∧ r.Overview = items[i].Overview := by
  obtain ⟨rs, hrs, hall⟩ :=
    searchLoop_fst_toList env items none [searchCall apiKey (stringsJoin args " ")]
  have hlist : (searchResultsOf env apiKey (stringsJoin args " ") items).toList = rs := by
    rw [searchResultsOf, hrs]
    rfl
  have hlen : items.length = rs.length := hall.length_eq
  refine ⟨?_, ?_, ?_⟩
  · rw [runSearch_of_success env apiKey args items hinit hsearch]
  · rw [hlist, hlen]
  · intro i hi
    have hi2 : i < rs.length := hlen ▸ hi
    obtain ⟨log, hlog⟩ := (List.forall₂_iff_get.mp hall).2 i hi hi2
    have hlog2 : rs[i] = (mapItem env log items[i]).1 := hlog
    refine ⟨rs[i], log, ?_, ?_, ?_, ?_, ?_⟩
    · rw [hlist]
      exact List.getElem?_eq_getElem hi2
    · exact hlog2
    · rw [hlog2]
      exact mapItem_ID env log items[i]
    · rw [hlog2]
      exact mapItem_Type env log items[i]
    · rw [hlog2]
      exact mapItem_Overview env log items[i]

theorem runSearch_maps_every_item_in_order_witness :
    (sampleEnv [sampleMovie, sampleTv] answerOk).tmdbInit "key" = .ok () ∧
    (sampleEnv [sampleMovie, sampleTv] answerOk).getSearchMulti "key"
      (stringsJoin ["the", "matrix"] " ") [] = .ok [sampleMovie, sampleTv] ∧
    (searchResultsOf (sampleEnv [sampleMovie, sampleTv] answerOk) "key"
      (stringsJoin ["the", "matrix"] " ") [sampleMovie, sampleTv]).toList.length = 2 :=
  ⟨rfl, rfl,
    (runSearch_maps_every_item_in_order (sampleEnv [sampleMovie, sampleTv] answerOk) "key"
      ["the", "matrix"] [sampleMovie, sampleTv] rfl rfl).2.1⟩

/-- C2: for an item whose media type is "movie", and for an item whose media
type is neither "movie" nor "tv", the record takes its titles and date from
the item's title, original title and release date, whatever the item's name,
original name and first air date hold. -/
theorem mapItem_movie_or_fallback (env : Env) (log : List Event) (item : Item)
    (h : item.MediaType = "movie" ∨ (item.MediaType ≠ "movie" ∧ item.MediaType ≠ "tv")) :
    (mapItem env log item).1.FullTitle = item.Title ∧
    (mapItem env log item).1.OriginalTitle = item.OriginalTitle ∧
    (mapItem env log item).1.ReleaseDate = item.ReleaseDate := by
  have hne : item.MediaType ≠ "tv" := by
    rcases h with h | h
    · rw [h]
      decide
    · exact h.2
  rw [mapItem_fst]
  simp [hne]

theorem mapItem_movie_or_fallback_witness :
    (sampleMovie.MediaType = "movie" ∨
      (sampleMovie.MediaType ≠ "movie" ∧ sampleMovie.MediaType ≠ "tv")) ∧
    (samplePerson.MediaType = "movie" ∨
      (samplePerson.MediaType ≠ "movie" ∧ samplePerson.MediaType ≠ "tv")) ∧
    (mapItem (sampleEnv [] answerOk) [] sampleMovie).1.FullTitle = "The Matrix" ∧
    (mapItem (sampleEnv [] answerOk) [] samplePerson).1.ReleaseDate = "prd" :=
  ⟨Or.inl rfl, Or.inr ⟨by decide, by decide⟩,
    (mapItem_movie_or_fallback (sampleEnv [] answerOk) [] sampleMovie (Or.inl rfl)).1,
    (mapItem_movie_or_fallback (sampleEnv [] answerOk) [] samplePerson
      (Or.inr ⟨by decide, by decide⟩)).2.2⟩

/-- C3: for an item whose media type is "tv", the record takes its titles and
date from the item's name, original name and first air date, whatever the
item's title, original title and release date hold. -/
theorem mapItem_tv (env : Env) (log : List Event) (item : Item)
    (h : item.MediaType = "tv") :
    (mapItem env log item).1.FullTitle = item.Name ∧
    (mapItem env log item).1.OriginalTitle = item.OriginalName ∧
    (mapItem env log item).1.ReleaseDate = item.FirstAirDate := by
  rw [mapItem_fst]
  simp [h]

theorem mapItem_tv_witness :
    sampleTv.MediaType = "tv" ∧
    (mapItem (sampleEnv [] answerOk) [] sampleTv).1.FullTitle = "Thrones" ∧
    (mapItem (sampleEnv [] answerOk) [] sampleTv).1.OriginalTitle = "GoT" ∧
    (mapItem (sampleEnv [] answerOk) [] sampleTv).1.ReleaseDate = "2011-04-17" :=
  ⟨rfl, mapItem_tv (sampleEnv [] answerOk) [] sampleTv rfl⟩

/-- C4: for an item with a poster path whose thumbnail fetch fails (transport
error, or a status other than 200), the record still has the full-size link,
the thumbnail field is left at its zero value, every other field is what any
other fetch outcome would give, the loop goes on, no run of `runSearch` whose
search succeeded ends fatally, the slice the loop returns holds that record
right after what it held before, followed by one record for each remaining
item, and a run whose search returned the item first prints a list that starts
with that record. -/
theorem mapItem_fetch_failure_swallowed (env : Env) (log : List Event) (item : Item)
    (hpath : item.PosterPath ≠ "")
    (hfail :
      (∃ err, env.httpGet log ("https://image.tmdb.org/t/p/w154" ++ item.PosterPath) =
        .transportError err) ∨
      (∃ code status body,
        env.httpGet log ("https://image.tmdb.org/t/p/w154" ++ item.PosterPath) =
          .response code status body ∧ code ≠ 200)) :
    (mapItem env log item).1.LargePosterLink =
      "https://image.tmdb.org/t/p/w500" ++ item.PosterPath ∧
    (mapItem env log item).1.SmallPosterBase64 = "" ∧
    (∀ (env2 : Env) (log2 : List Event),
      (mapItem env2 log2 item).1 =
        { (mapItem env log item).1 with
          SmallPosterBase64 := (mapItem env2 log2 item).1.SmallPosterBase64 }) ∧
    (∀ (rest : List Item) (acc : GoSlice SearchResult),
      searchLoop env (item :: rest) acc log =
        searchLoop env rest (goAppend acc (mapItem env log item).1)
          (log ++ [Event.httpGet ("https://image.tmdb.org/t/p/w154" ++ item.PosterPath)])) ∧
    (∀ (apiKey : String) (args : List String) (items : List Item),
      env.tmdbInit apiKey = .ok () →
      env.getSearchMulti apiKey (stringsJoin args " ") [] = .ok items →
      ∃ out, (runSearch env apiKey args).exit = .ok out) ∧
    (∀ (rest : List Item) (acc : GoSlice SearchResult),
      ∃ rs : List SearchResult,
        (searchLoop env (item :: rest) acc log).1 =
          some (acc.toList ++ (mapItem env log item).1 :: rs) ∧
        rs.length = rest.length) ∧
    (∀ (apiKey : String) (args : List String) (rest : List Item),
      env.tmdbInit apiKey = .ok () →
      env.getSearchMulti apiKey (stringsJoin args " ") [] = .ok (item :: rest) →
      log = [Event.getSearchMulti apiKey (stringsJoin args " ") []] →
      ∃ rs : List SearchResult,
        rs.length = rest.length ∧
        (runSearch env apiKey args).exit =
          .ok (marshalText (some ((mapItem env log item).1 :: rs)) ++ "\n")) := by
  have hf : ∃ e, (fetchImageBase64 env log (smallPosterURL item.PosterPath)).1 = .error e := by
    rcases hfail with ⟨err, h⟩ | ⟨code, status, body, h, hc⟩
    · exact ⟨err, fetch_of_transportError env log _ err h⟩
    · exact ⟨_, fetch_of_bad_status env log _ status code body h hc⟩
  obtain ⟨e, he⟩ := hf
  refine ⟨?_, ?_, ?_, ?_, ?_, ?_, ?_⟩
  · rw [mapItem_fst]
    simp [hpath, largePosterLink]
  · rw [mapItem_fst]
    simp [hpath, he]
  · intro env2 log2
    rw [mapItem_fst, mapItem_fst]
  · intro rest acc
    show searchLoop env rest (goAppend acc (mapItem env log item).1) (mapItem env log item).2 = _
    rw [mapItem_snd]
    simp [hpath, smallPosterURL]
  · intro apiKey args items hinit hsearch
    exact ⟨_, (congrArg Outcome.exit (runSearch_of_success env apiKey args items hinit hsearch))⟩
  · intro rest acc
    exact searchLoop_cons_fst env item rest acc log
  · intro apiKey args rest hinit hsearch hlog
    obtain ⟨rs, h1, h2⟩ := searchLoop_cons_fst env item rest none log
    refine ⟨rs, h2, ?_⟩
    rw [runSearch_of_success env apiKey args (item :: rest) hinit hsearch]
    have h3 : searchResultsOf env apiKey (stringsJoin args " ") (item :: rest) =
        (searchLoop env (item :: rest) none log).1 := by
      rw [hlog]
      rfl
    rw [h3, h1]
    rfl

theorem mapItem_fetch_failure_swallowed_witness :
    sampleMovie.PosterPath ≠ "" ∧
    (sampleEnv [sampleMovie] answerNotFound).httpGet []
      ("https://image.tmdb.org/t/p/w154" ++ sampleMovie.PosterPath) =
        .response 404 "404 Not Found" (.ok []) ∧
    (mapItem (sampleEnv [sampleMovie] answerNotFound) [] sampleMovie).1.LargePosterLink =
      "https://image.tmdb.org/t/p/w500/m.jpg" ∧
    (mapItem (sampleEnv [sampleMovie] answerNotFound) [] sampleMovie).1.SmallPosterBase64 = "" ∧
    (searchLoop (sampleEnv [sampleMovie] answerNotFound) [sampleMovie] none []).1 =
      some [(mapItem (sampleEnv [sampleMovie] answerNotFound) [] sampleMovie).1] :=
  ⟨by decide, rfl,
    (mapItem_fetch_failure_swallowed (sampleEnv [sampleMovie] answerNotFound) [] sampleMovie
      (by decide) (Or.inr ⟨404, "404 Not Found", .ok [], rfl, by decide⟩)).1,
    (mapItem_fetch_failure_swallowed (sampleEnv [sampleMovie] answerNotFound) [] sampleMovie
      (by decide) (Or.inr ⟨404, "404 Not Found", .ok [], rfl, by decide⟩)).2.1,
    match (mapItem_fetch_failure_swallowed (sampleEnv [sampleMovie] answerNotFound) []
      sampleMovie (by decide)
      (Or.inr ⟨404, "404 Not Found", .ok [], rfl, by decide⟩)).2.2.2.2.2.1 [] none with
    | ⟨rs, h, hlen⟩ => by
      rw [h, List.length_eq_zero.mp hlen]
      rfl⟩

/-- C6: for an item with an empty poster path both poster fields of the record
are left at their zero value, the trace is unchanged (no call is made), and
the record is the same in every world. -/
theorem mapItem_no_poster (env : Env) (log : List Event) (item : Item)
    (h : item.PosterPath = "") :
    (mapItem env log item).1.SmallPosterBase64 = "" ∧
    (mapItem env log item).1.LargePosterLink = "" ∧
    (mapItem env log item).2 = log ∧
    (∀ (env2 : Env) (log2 : List Event), (mapItem env2 log2 item).1 = (mapItem env log item).1) := by
  refine ⟨?_, ?_, ?_, ?_⟩
  · rw [mapItem_fst]
    simp [h]
  · rw [mapItem_fst]
    simp [h]
  · rw [mapItem_snd]
    simp [h]
  · intro env2 log2
    rw [mapItem_fst, mapItem_fst]
    simp [h]

theorem mapItem_no_poster_witness :
    sampleTv.PosterPath = "" ∧
    (mapItem (sampleEnv [sampleTv] answerOk) [] sampleTv).1.SmallPosterBase64 = "" ∧
    (mapItem (sampleEnv [sampleTv] answerOk) [] sampleTv).1.LargePosterLink = "" ∧
    (mapItem (sampleEnv [sampleTv] answerOk) [] sampleTv).2 = [] :=
  ⟨rfl, (mapItem_no_poster (sampleEnv [sampleTv] answerOk) [] sampleTv rfl).1,
    (mapItem_no_poster (sampleEnv [sampleTv] answerOk) [] sampleTv rfl).2.1,
    (mapItem_no_poster (sampleEnv [sampleTv] answerOk) [] sampleTv rfl).2.2.1⟩

/-- C9 as the spec states it fails: with no key in the flag or in the
environment, `search --help` ends with the help text and `search` without a
term ends with a usage error; so it is false that every run of a command other
than `help` with both sources empty ends in the fatal configuration error. -/
theorem help_flag_and_missing_terms_bypass_key_check :
    cobraExecute (fun _ => "")
      (.resolved (searchCmd (sampleEnv [] answerOk)) "" true ["matrix"]) =
      { trace := [], exit := .help } ∧
    cobraExecute (fun _ => "")
      (.resolved (searchCmd (sampleEnv [] answerOk)) "" false []) =
      { trace := [], exit := .usageError "requires at least 1 arg(s), only received 0" } ∧
    cobraExecute (fun _ => "") (.resolved rootCmd "" false []) =
      { trace := [], exit := .help } ∧
    ¬ (∀ (getenv : String → String) (cmd : Command) (flag : String) (helpFlag : Bool)
        (args : List String),
        flag = "" ∧ getenv "TMDB_API_KEY" = "" ∧ cmd.name ≠ "help" →
        ∃ msg, (cobraExecute getenv (.resolved cmd flag helpFlag args)).exit = .fatal msg) := by
  refine ⟨by decide, by decide, by decide, ?_⟩
  intro h
  obtain ⟨msg, hmsg⟩ :=
    h (fun _ => "") (searchCmd (sampleEnv [] answerOk)) "" true ["matrix"]
      ⟨rfl, rfl, by decide⟩
  revert hmsg
  simp [cobraExecute]

/-- C9 as amended: when the hook runs it ends the process exactly when the flag
and `TMDB_API_KEY` are both empty and the command is not `help`, and otherwise
leaves the flag when it is non-empty and the value of `TMDB_API_KEY` when it
is empty.  The hook is reached only for a runnable command, without help flag,
whose argument check passed: a help flag or a command without `Run` ends with
the help text, a failed argument check with a usage error, both without a key
and without any call.  When the hook ends the process `Run` is not reached
and no call is in the trace; otherwise `Run` gets the resolved key.  For
`search`, the run ends in the fatal configuration error exactly when no help
flag is given, there is at least one term, and both sources are empty. -/
theorem cobraExecute_key_resolution (env : Env) (getenv : String → String) (cmd : Command)
    (flag : String) (helpFlag : Bool) (args : List String) :
    ((∃ msg, persistentPreRun getenv flag cmd.name = .error msg) ↔
      (flag = "" ∧ getenv "TMDB_API_KEY" = "" ∧ cmd.name ≠ "help")) ∧
    (∀ key, persistentPreRun getenv flag cmd.name = .ok key →
      key = if flag ≠ "" then flag else getenv "TMDB_API_KEY") ∧
    (helpFlag = true ∨ cmd.run = none →
      cobraExecute getenv (.resolved cmd flag helpFlag args) =
        { trace := [], exit := .help }) ∧
    (∀ run err, helpFlag = false → cmd.run = some run → cmd.validateArgs args = some err →
      cobraExecute getenv (.resolved cmd flag helpFlag args) =
        { trace := [], exit := .usageError err }) ∧
    (∀ run, helpFlag = false → cmd.run = some run → cmd.validateArgs args = none →
      (flag = "" ∧ getenv "TMDB_API_KEY" = "" ∧ cmd.name ≠ "help" →
        cobraExecute getenv (.resolved cmd flag helpFlag args) =
          { trace := [], exit := .fatal missingKeyMessage }) ∧
      (¬ (flag = "" ∧ getenv "TMDB_API_KEY" = "" ∧ cmd.name ≠ "help") →
        cobraExecute getenv (.resolved cmd flag helpFlag args) =
          run (if flag ≠ "" then flag else getenv "TMDB_API_KEY") args)) ∧
    (cobraExecute getenv (.resolved (searchCmd env) flag helpFlag args) =
        { trace := [], exit := .fatal missingKeyMessage } ↔
      (helpFlag = false ∧ args ≠ [] ∧ flag = "" ∧ getenv "TMDB_API_KEY" = "")) := by
  refine ⟨?_, ?_, ?_, ?_, ?_, ?_⟩
  · by_cases hf : flag = "" <;> by_cases he : getenv "TMDB_API_KEY" = "" <;>
      by_cases hc : cmd.name = "help" <;> simp [persistentPreRun, hf, he, hc]
  · by_cases hf : flag = "" <;> by_cases he : getenv "TMDB_API_KEY" = "" <;>
      by_cases hc : cmd.name = "help" <;> simp [persistentPreRun, hf, he, hc]
  · intro h
    rcases h with h | h
    · simp [cobraExecute, h]
    · cases helpFlag <;> simp [cobraExecute, h]
  · intro run err hh hr hv
    simp [cobraExecute, hh, hr, hv]
  · intro run hh hr hv
    by_cases hf : flag = "" <;> by_cases he : getenv "TMDB_API_KEY" = "" <;>
      by_cases hc : cmd.name = "help" <;>
      simp [cobraExecute, persistentPreRun, missingKeyMessage, hh, hr, hv, hf, he, hc]
  · exact searchCmd_fatal_iff env getenv flag helpFlag args

theorem cobraExecute_key_resolution_witness :
    cobraExecute (fun _ => "")
      (.resolved (searchCmd (sampleEnv [] answerOk)) "" false ["matrix"]) =
      { trace := [], exit := .fatal missingKeyMessage } ∧
    cobraExecute (fun _ => "")
      (.resolved (searchCmd (sampleEnv [] answerOk)) "" true ["matrix"]) =
      { trace := [], exit := .help } :=
  ⟨(cobraExecute_key_resolution (sampleEnv [] answerOk) (fun _ => "")
      (searchCmd (sampleEnv [] answerOk)) "" false ["matrix"]).2.2.2.2.2.mpr
      ⟨rfl, by decide, rfl, rfl⟩,
   (cobraExecute_key_resolution (sampleEnv [] answerOk) (fun _ => "")
      (searchCmd (sampleEnv [] answerOk)) "" true ["matrix"]).2.2.1 (Or.inl rfl)⟩

/-- C10: when the client initializes, `runSearch` makes exactly one multi-search
call, the first call of the run, and its query is the terms in their order
with one space between consecutive terms and nothing around them; a single
term is passed unchanged. -/
theorem runSearch_query_is_spaced_terms (env : Env) (apiKey : String) (args : List String)
    (hinit : env.tmdbInit apiKey = .ok ()) :
    stringsJoin args " " = spacedConcat args ∧
    (∃ urls : List String,
      (runSearch env apiKey args).trace =
        Event.getSearchMulti apiKey (spacedConcat args) [] :: urls.map Event.httpGet) ∧
    (∀ t : String, args = [t] → spacedConcat args = t) ∧
    (∀ (t : String) (rest : List String), args = t :: rest →
      spacedConcat args = t ++ String.join (rest.map (fun u => " " ++ u))) := by
  refine ⟨stringsJoin_eq_spacedConcat args, ?_, ?_, ?_⟩
  · rw [← stringsJoin_eq_spacedConcat]
    cases hs : env.getSearchMulti apiKey (stringsJoin args " ") [] with
    | error err =>
      refine ⟨[], ?_⟩
      simp [runSearch, hinit, hs]
    | ok items =>
      rw [runSearch_of_success env apiKey args items hinit hs, searchLoop_snd]
      refine ⟨(items.filter (fun it => decide (it.PosterPath ≠ ""))).map
        (fun it => smallPosterURL it.PosterPath), ?_⟩
      simp [searchCall, List.map_map, Function.comp_def]
  · intro t ht
    rw [ht]
    rfl
  · intro t rest ht
    rw [ht]
    exact spacedConcat_cons t rest

theorem runSearch_query_is_spaced_terms_witness :
    (sampleEnv [sampleTv] answerOk).tmdbInit "key" = .ok () ∧
    stringsJoin ["game", "of", "thrones"] " " = "game of thrones" :=
  ⟨rfl,
    (runSearch_query_is_spaced_terms (sampleEnv [sampleTv] answerOk) "key"
      ["game", "of", "thrones"] rfl).1⟩

/-- C5: for an item with a poster path the loop body makes exactly one call, a
GET of `https://image.tmdb.org/t/p/w154` followed by the poster path; when
that call answers with status 200 and the body `B`, the thumbnail field is
the encoder's output for `B`, which is the RFC 4648 standard base64 of `B`:
characters of the standard alphabet and `=` only (never `-` or `_`), four
characters for every started group of three bytes. -/
theorem mapItem_thumbnail_is_std_base64 (env : Env) (log : List Event) (item : Item)
    (hpath : item.PosterPath ≠ "") :
    (mapItem env log item).2 =
      log ++ [Event.httpGet ("https://image.tmdb.org/t/p/w154" ++ item.PosterPath)] ∧
    ∀ (status : String) (B : List Byte),
      env.httpGet log ("https://image.tmdb.org/t/p/w154" ++ item.PosterPath) =
        .response 200 status (.ok B) →
      (mapItem env log item).1.SmallPosterBase64 = encodeToString B ∧
      (encodeToString B).toList = rfcBase64 B ∧
      (∀ c ∈ (encodeToString B).toList,
        (c ∈ encodeStd ∨ c = '=') ∧ c ≠ '-' ∧ c ≠ '_') ∧
      (encodeToString B).toList.length = 4 * ((B.length + 2) / 3) := by
  refine ⟨?_, ?_⟩
  · rw [mapItem_snd]
    simp [hpath, smallPosterURL]
  · intro status B hB
    refine ⟨?_, base64Encode_eq_rfcBase64 B, ?_, base64Encode_length B⟩
    · rw [mapItem_fst]
      simp [hpath, smallPosterURL, fetch_of_ok env log _ status B hB]
    · intro c hc
      have h := base64Encode_alphabet B c hc
      refine ⟨h, ?_, ?_⟩
      · rintro rfl
        revert h
        decide
      · rintro rfl
        revert h
        decide

theorem mapItem_thumbnail_is_std_base64_witness :
    sampleMovie.PosterPath ≠ "" ∧
    (mapItem (sampleEnv [sampleMovie] answerOk) [] sampleMovie).2 =
      [Event.httpGet "https://image.tmdb.org/t/p/w154/m.jpg"] ∧
    (mapItem (sampleEnv [sampleMovie] answerOk) [] sampleMovie).1.SmallPosterBase64 =
      "Zm9vYmE=" :=
  ⟨by decide,
    (mapItem_thumbnail_is_std_base64 (sampleEnv [sampleMovie] answerOk) [] sampleMovie
      (by decide)).1,
    ((mapItem_thumbnail_is_std_base64 (sampleEnv [sampleMovie] answerOk) [] sampleMovie
      (by decide)).2 "200 OK" [102, 111, 111, 98, 97] rfl).1⟩

/-- C7, which the code breaks: when the search succeeds with an empty list the
loop leaves `searchResults` nil and `runSearch` prints `null`; a non-nil empty
slice would have been printed as `[]`. -/
theorem runSearch_empty_results_prints_null :
    searchResultsOf (sampleEnv [] answerOk) "key" "zzzz" [] = none ∧
    runSearch (sampleEnv [] answerOk) "key" ["zzzz"] =
      { trace := [Event.getSearchMulti "key" "zzzz" []], exit := .ok "null\n" } ∧
    marshalText (some []) = "[]" := by
  refine ⟨rfl, ?_, ?_⟩
  · decide
  · decide

/-- C8 as the spec states it fails: the run over one series without a poster
leaves both poster fields at their zero value and prints both keys, each with
the value `""`; so it is false that a record with an empty thumbnail field
never shows the key `small_poster_base64`. -/
theorem absent_poster_keys_still_serialized :
    (mapItem (sampleEnv [sampleTv] answerOk) [] sampleTv).1.SmallPosterBase64 = "" ∧
    (mapItem (sampleEnv [sampleTv] answerOk) [] sampleTv).1.LargePosterLink = "" ∧
    (runSearch (sampleEnv [sampleTv] answerOk) "key" ["thrones"]).exit = .ok sampleTvOutput ∧
    occursIn "\"small_poster_base64\": \"\"" sampleTvOutput ∧
    occursIn "\"large_poster_link\": \"\"" sampleTvOutput ∧
    ¬ (∀ sr : SearchResult, sr.SmallPosterBase64 = "" →
      ¬ occursIn (encodeString "small_poster_base64")
        (renderObject 1 (encodeStruct sr.fields))) := by
  refine ⟨by decide, by decide, by decide, by decide, by decide, ?_⟩
  intro h
  exact h SearchResult.zero rfl (small_key_occurs SearchResult.zero 1)

/-- C8 as amended: every record of the printed slice is printed as an object
that carries all eight keys in declaration order; a thumbnail field or a
full-size link left at its zero value is printed as the key with the value
`""`, neither omitted nor null. -/
theorem absent_fields_serialized_as_empty_strings (l : List SearchResult)
    (sr : SearchResult) (hmem : sr ∈ l) :
    (encodeStruct sr.fields).map Prod.fst =
      ["id", "type", "full_title", "original_title", "release_date", "overview",
       "small_poster_base64", "large_poster_link"].map encodeString ∧
    occursIn (renderObject 1 (encodeStruct sr.fields)) (marshalText (some l)) ∧
    (sr.SmallPosterBase64 = "" →
      occursIn "\"small_poster_base64\": \"\"" (marshalText (some l))) ∧
    (sr.LargePosterLink = "" →
      occursIn "\"large_poster_link\": \"\"" (marshalText (some l))) := by
  have hobj := object_occurs l sr hmem
  refine ⟨rfl, hobj, ?_, ?_⟩
  · intro h
    have hm := small_member_occurs sr 1
    rw [h] at hm
    exact occursIn_trans hm hobj
  · intro h
    have hm := large_member_occurs sr 1
    rw [h] at hm
    exact occursIn_trans hm hobj

theorem absent_fields_serialized_as_empty_strings_witness :
    (mapItem (sampleEnv [sampleTv] answerOk) [] sampleTv).1 ∈
      [(mapItem (sampleEnv [sampleTv] answerOk) [] sampleTv).1] ∧
    (mapItem (sampleEnv [sampleTv] answerOk) [] sampleTv).1.SmallPosterBase64 = "" ∧
    occursIn "\"small_poster_base64\": \"\""
      (marshalText (some [(mapItem (sampleEnv [sampleTv] answerOk) [] sampleTv).1])) :=
  ⟨List.mem_singleton.mpr rfl, rfl,
    (absent_fields_serialized_as_empty_strings
      [(mapItem (sampleEnv [sampleTv] answerOk) [] sampleTv).1]
      (mapItem (sampleEnv [sampleTv] answerOk) [] sampleTv).1
      (List.mem_singleton.mpr rfl)).2.2.1 rfl⟩

end TmdbClient
